import Mathlib

/-!
Verification development for the toml_const_cli tool.

The embedding models the three source files of the crate:
- src/package_navi.rs: parsing a Cargo manifest into a small feature
  struct and walking ancestor directories to find the project root;
- src/cli.rs: merging generated keys into the env table of
  .cargo/config.toml, computing the relative-root string, creating the
  boilerplate toml files, and updating the two gitignore files.

Filesystem paths are modelled as lists of components; TOML documents as
an inductive value type whose tables are association lists (matching the
ordered map of the toml crate: insert replaces the value of an existing
key, otherwise appends); file I/O outcomes are passed in explicitly.
-/

/-- Association-list lookup, first match wins.  Models `Map::get` of the
toml crate's table type (keys are unique in parsed documents). -/
def alGet {α : Type} : List (String × α) → String → Option α
  | [], _ => none
  | (k, v) :: rest, key => if k = key then some v else alGet rest key

/-- Association-list insert.  Models `Map::insert`: an existing key keeps
its position and gets the new value, a new key is appended. -/
def alInsert {α : Type} : List (String × α) → String → α → List (String × α)
  | [], key, val => [(key, val)]
  | (k, v) :: rest, key, val =>
    if k = key then (key, val) :: rest else (k, v) :: alInsert rest key val

theorem alGet_alInsert_self {α : Type} (l : List (String × α)) (k : String) (v : α) :
    alGet (alInsert l k v) k = some v := by
  induction l with
  | nil => simp [alInsert, alGet]
  | cons hd tl ih =>
    obtain ⟨k', v'⟩ := hd
    by_cases h : k' = k
    · simp [alInsert, alGet, h]
    · simp [alInsert, alGet, h, ih]

theorem alGet_alInsert_ne {α : Type} (l : List (String × α)) (k k' : String) (v : α)
    (h : k' ≠ k) : alGet (alInsert l k v) k' = alGet l k' := by
  induction l with
  | nil =>
    simp only [alInsert, alGet]
    rw [if_neg (Ne.symm h)]
  | cons hd tl ih =>
    obtain ⟨k0, v0⟩ := hd
    simp only [alInsert]
    by_cases h0 : k0 = k
    · subst h0
      rw [if_pos rfl]
      simp only [alGet]
      rw [if_neg (Ne.symm h), if_neg (Ne.symm h)]
    · rw [if_neg h0]
      simp only [alGet]
      by_cases h1 : k0 = k'
      · rw [if_pos h1, if_pos h1]
      · rw [if_neg h1, if_neg h1, ih]

/-- TOML values as used by the tool: strings, integers, booleans, arrays
and tables.  A table is an association list of key/value pairs. -/
inductive TomlValue where
  | str (s : String)
  | int (n : Int)
  | bool (b : Bool)
  | arr (vs : List TomlValue)
  | table (t : List (String × TomlValue))

/-- A TOML table (the toml crate's `Table`). -/
abbrev Table := List (String × TomlValue)

/-- Key access on a TOML value (Rust `Value::get` with a string index):
only tables yield entries, every other shape yields `none`. -/
def TomlValue.getKey : TomlValue → String → Option TomlValue
  | .table t, k => alGet t k
  | _, _ => none

/-- Whether a TOML value is a table. -/
def TomlValue.isTable : TomlValue → Bool
  | .table _ => true
  | _ => false

/-- Cargo manifest feature struct (src/package_navi.rs). -/
structure CargoManifest where
  package : Option String
  workspace : Bool
  binaries : Option (List String)
  library : Option String

/-- Result of running code that may panic (Rust `panic!` / `expect`). -/
inductive PanicOr (α : Type) where
  | panic (msg : String)
  | ok (val : α)

/-- Extraction of one binary-target name in `CargoManifest::from_str`:
`inner.get("name").expect(..)` panics when the key is missing, and the
code panics again when the name is not a string. -/
def binName (inner : TomlValue) : PanicOr String :=
  match inner.getKey "name" with
  | none => .panic "each binary target should have a name"
  | some (.str n) => .ok n
  | some _ => .panic "binary target should be a string"

/-- Extraction of all binary-target names, in order; the first offending
entry panics. -/
def binNames : List TomlValue → PanicOr (List String)
  | [] => .ok []
  | inner :: rest =>
    match binName inner with
    | .panic m => .panic m
    | .ok n =>
      match binNames rest with
      | .panic m => .panic m
      | .ok ns => .ok (n :: ns)

/-- The `bin` field handling of `CargoManifest::from_str`: only an array
value is inspected, every other shape (or absence) yields no binaries. -/
def getBinaries (t : Table) : PanicOr (Option (List String)) :=
  match alGet t "bin" with
  | some (.arr bins) =>
    match binNames bins with
    | .panic m => .panic m
    | .ok ns => .ok (some ns)
  | some _ => .ok none
  | none => .ok none

/-- The `package.name` extraction of `CargoManifest::from_str`: present
only when the nested value exists and is a string. -/
def getPackageName (t : Table) : Option String :=
  match alGet t "package" with
  | some v =>
    match v.getKey "name" with
    | some (.str n) => some n
    | _ => none
  | none => none

/-- The `lib.name` extraction of `CargoManifest::from_str`. -/
def getLibrary (t : Table) : Option String :=
  match alGet t "lib" with
  | some v =>
    match v.getKey "name" with
    | some (.str n) => some n
    | _ => none
  | none => none

/-- The workspace flag: any `workspace` key at all marks a workspace. -/
def workspaceFlag (t : Table) : Bool := (alGet t "workspace").isSome

/-- Body of `CargoManifest::from_str` after the TOML text has parsed into
a table.  The binaries extraction can panic; every other field extraction
is total. -/
def CargoManifest.fromTable (t : Table) : PanicOr CargoManifest :=
  match getBinaries t with
  | .panic m => .panic m
  | .ok bins => .ok ⟨getPackageName t, workspaceFlag t, bins, getLibrary t⟩

/-- What the walk finds at one ancestor directory: no Cargo.toml file, a
file whose read fails with an I/O error, or a file whose contents either
fail TOML parsing (`content none`) or parse into a table. -/
inductive FileEntry where
  | noFile
  | readError
  | content (parsed : Option Table)

/-- One ancestor directory of the start directory: its absolute path (as
components) and what the filesystem holds at `dir/Cargo.toml`. -/
structure Ancestor where
  dir : List String
  entry : FileEntry

/-- Result of `find_cargo_parent`: either the process panics (inside
manifest parsing) or the walk finishes with an optional Cargo.toml
path. -/
inductive WalkResult where
  | panic (msg : String)
  | done (res : Option (List String))

/-- The ancestor walk of `find_cargo_parent` (src/package_navi.rs).
`ancs` is the ancestor chain of the canonicalized start directory,
nearest first, up to and including the filesystem root; `acc` is the
`path` variable holding the best candidate so far.  A read failure makes
the whole function return `None` (the `.ok()?` operator); a TOML parse
failure is skipped; a workspace manifest records its own path and breaks;
a package manifest records its path and continues. -/
def findCargoParent : List Ancestor → Option (List String) → WalkResult
  | [], acc => .done acc
  | a :: rest, acc =>
    match a.entry with
    | .noFile => findCargoParent rest acc
    | .readError => .done none
    | .content none => findCargoParent rest acc
    | .content (some t) =>
      match CargoManifest.fromTable t with
      | .panic m => .panic m
      | .ok m =>
        if m.workspace then .done (some (a.dir ++ ["Cargo.toml"]))
        else if m.package.isSome then
          findCargoParent rest (some (a.dir ++ ["Cargo.toml"]))
        else findCargoParent rest acc

/-- Result of the caller-side root resolution in `run` (src/cli.rs):
either a panic propagated from the walk or the resolved root
directory. -/
inductive RootResult where
  | panic (msg : String)
  | root (dir : List String)

/-- The root resolution of `run` (src/cli.rs, the `find_cargo_parent`
match): when the walk returns a Cargo.toml path its parent directory
becomes the project root, otherwise the start directory is kept. -/
def resolveRoot (start : List String) (ancs : List Ancestor) : RootResult :=
  match findCargoParent ancs none with
  | .panic m => .panic m
  | .done (some p) => .root p.dropLast
  | .done none => .root start

/-- An entry that lets the walk move past it to the next ancestor: no
file, unparseable contents, or a manifest that parses without panic and
does not declare a workspace. -/
def entryNonTerminating : FileEntry → Bool
  | .noFile => true
  | .readError => false
  | .content none => true
  | .content (some t) =>
    match CargoManifest.fromTable t with
    | .ok m => !m.workspace
    | .panic _ => false

/-- An entry with no manifest file at all. -/
def entryIsNoFile : FileEntry → Bool
  | .noFile => true
  | _ => false

/-- An entry holding a readable, parseable, package-declaring,
non-workspace manifest. -/
def entryPackageNonWorkspace : FileEntry → Bool
  | .content (some t) =>
    (match CargoManifest.fromTable t with
     | .ok m => !m.workspace && m.package.isSome
     | .panic _ => false)
  | _ => false

/-- Modelled from the spec: the generated entries are keyed by a small
fixed vocabulary (template-file name, debug-file name, deploy-file name,
config-directory path, generated-file path).  The constant itself lives
in the excluded toml_const crate (imported as toml_const::consts). -/
def TEMPLATE_ENV : String := "TOML_CONST_TEMPLATE"

/-- Modelled from the spec: the env key naming the debug toml file, from
the excluded toml_const crate. -/
def DEBUG_ENV : String := "TOML_CONST_DEBUG"

/-- Modelled from the spec: the env key naming the deploy toml file, from
the excluded toml_const crate. -/
def DEPLOY_ENV : String := "TOML_CONST_DEPLOY"

/-- Modelled from the spec: the env key naming the config-directory path,
from the excluded toml_const crate. -/
def CONFIG_PATH_ENV : String := "TOML_CONST_CONFIG_PATH"

/-- Modelled from the spec: the env key naming the generated-file path,
from the excluded toml_const crate. -/
def GENERATED_FILE_PATH_ENV : String := "TOML_CONST_GENERATED_FILE_PATH"

/-- The five generated keys, in the order `insert_into_env` writes
them. -/
def generatedKeys : List String :=
  [TEMPLATE_ENV, DEBUG_ENV, DEPLOY_ENV, CONFIG_PATH_ENV, GENERATED_FILE_PATH_ENV]

/-- insert_into_env (src/cli.rs): writes the five generated keys into the
env table, overwriting existing values. -/
def insert_into_env (env_table : Table) (template debug deploy config_path
    generated_path : String) : Table :=
  alInsert
    (alInsert
      (alInsert
        (alInsert
          (alInsert env_table TEMPLATE_ENV (.str template))
          DEBUG_ENV (.str debug))
        DEPLOY_ENV (.str deploy))
      CONFIG_PATH_ENV (.str config_path))
    GENERATED_FILE_PATH_ENV (.str generated_path)

/-- update_config_toml (src/cli.rs): merges the generated keys into the
env table of the document.  An existing env table is updated in place; an
existing env value of any other shape is an error; an absent env key gets
a fresh table holding only the generated keys. -/
def update_config_toml (toml : Table) (template debug deploy config_path
    generated_path relative_root : String) : Except String Table :=
  let actual_config_path := relative_root ++ config_path
  match alGet toml "env" with
  | some (.table t) =>
    .ok (alInsert toml "env"
      (.table (insert_into_env t template debug deploy actual_config_path
        generated_path)))
  | some _ => .error "key \"env\" not defined as a table"
  | none =>
    .ok (alInsert toml "env"
      (.table (insert_into_env [] template debug deploy actual_config_path
        generated_path)))

/-- The config-file write gate of `run` (src/cli.rs): the document is
serialized back to .cargo/config.toml only when `update_config_toml`
returned Ok; on Err the function logs and returns a failure exit code
before the write, so nothing is written. -/
def mergedConfigWrite (toml : Table) (template debug deploy config_path
    generated_path relative_root : String) : Option Table :=
  match update_config_toml toml template debug deploy config_path
      generated_path relative_root with
  | .ok out => some out
  | .error _ => none

/-- Rust `Path::strip_prefix` on component lists: strips `pre` from the
front of `base` when it is an initial segment, otherwise fails (the
caller unwraps). -/
def stripRoot (base pre : List String) : Option (List String) :=
  if base.take pre.length = pre then some (base.drop pre.length) else none

/-- The `relative_root` computation of `run` (src/cli.rs): `base` is the
canonical manifest path, `root` the resolved project root; `delta` counts
the components of the stripped remainder (the manifest file name
included) and the result repeats the parent-directory step `delta - 1`
times. -/
def relative_root (base root : List String) : Option String :=
  match stripRoot base root with
  | none => none
  | some rel => some (String.join (List.replicate (rel.length - 1) "../"))

/-- Modelled from the spec: the fixed boilerplate text payload written
into every fresh toml config file; the constant lives in the excluded
toml_const crate. -/
def CONFIG_TOML_BOILERPLATE : String :=
  "# boilerplate toml config file\n"

/-- Contents of the files in the config directory, keyed by file name;
a missing entry stands for an absent or empty file (open-with-create
makes the two indistinguishable to the read that follows). -/
abbrev FsState := List (String × String)

/-- Read a file's contents; an absent file reads as empty (the open call
creates it empty). -/
def fsRead (fs : FsState) (p : String) : String := (alGet fs p).getD ""

/-- Write contents to a file, replacing whatever was there. -/
def fsWrite (fs : FsState) (p : String) (c : String) : FsState := alInsert fs p c

/-- The per-file loop of create_config_toml_files (src/cli.rs): open or
create the file, read it, fail if it has any content, otherwise write the
boilerplate and move to the next file.  Returns the filesystem state
after the call together with the error, if any — files written before an
error keep their new contents. -/
def createLoop : FsState → List String → FsState × Option String
  | fs, [] => (fs, none)
  | fs, p :: rest =>
    if fsRead fs p = "" then
      createLoop (fsWrite fs p CONFIG_TOML_BOILERPLATE) rest
    else (fs, some "Config files already exist")

/-- create_config_toml_files (src/cli.rs): iterates the loop over the
template, debug and deploy file names in that order. -/
def create_config_toml_files (fs : FsState) (template debug deploy : String) :
    FsState × Option String :=
  createLoop fs [template, debug, deploy]

/-- Outcome of one filesystem call injected into the gitignore model. -/
inductive DiskResult where
  | ok
  | ioErr (msg : String)

/-- The four fallible filesystem calls made by update_gitignore_file, in
program order: open and write of the gitignore beside the generated file,
then open and write of the gitignore in the config directory. -/
structure IgnoreDisk where
  openGenerated : DiskResult
  writeGenerated : DiskResult
  openConfig : DiskResult
  writeConfig : DiskResult

/-- Result of update_gitignore_file: a panic (an unwrap on an open call
or on the file-name extraction), a returned error string, or success. -/
inductive GitignoreOutcome where
  | panic
  | err (msg : String)
  | ok

/-- update_gitignore_file (src/cli.rs): takes the generated file's path
and the outcomes of the four filesystem calls.  The file-name extraction
and both open calls are unwrapped — an error there panics; the two write
calls map their error to its message string and return it with the
question-mark operator. -/
def update_gitignore_file (generated_file_path : List String)
    (disk : IgnoreDisk) : GitignoreOutcome :=
  match generated_file_path.getLast? with
  | none => .panic
  | some _ =>
    match disk.openGenerated with
    | .ioErr _ => .panic
    | .ok =>
      match disk.writeGenerated with
      | .ioErr m => .err m
      | .ok =>
        match disk.openConfig with
        | .ioErr _ => .panic
        | .ok =>
          match disk.writeConfig with
          | .ioErr m => .err m
          | .ok => .ok

theorem dropLast_append_single (l : List String) (x : String) :
    (l ++ [x]).dropLast = l := by
  simp

theorem fcp_noFile (d : List String) (r : List Ancestor) (acc : Option (List String)) :
    findCargoParent (⟨d, .noFile⟩ :: r) acc = findCargoParent r acc := rfl

theorem fcp_readError (d : List String) (r : List Ancestor) (acc : Option (List String)) :
    findCargoParent (⟨d, .readError⟩ :: r) acc = .done none := rfl

theorem fcp_parseError (d : List String) (r : List Ancestor) (acc : Option (List String)) :
    findCargoParent (⟨d, .content none⟩ :: r) acc = findCargoParent r acc := rfl

theorem fcp_manifest (d : List String) (t : Table) (m : CargoManifest)
    (r : List Ancestor) (acc : Option (List String))
    (hft : CargoManifest.fromTable t = .ok m) :
    findCargoParent (⟨d, .content (some t)⟩ :: r) acc =
      if m.workspace then .done (some (d ++ ["Cargo.toml"]))
      else if m.package.isSome then findCargoParent r (some (d ++ ["Cargo.toml"]))
      else findCargoParent r acc := by
  simp only [findCargoParent]
  rw [hft]

theorem fcp_panic (d : List String) (t : Table) (msg : String)
    (r : List Ancestor) (acc : Option (List String))
    (hft : CargoManifest.fromTable t = .panic msg) :
    findCargoParent (⟨d, .content (some t)⟩ :: r) acc = .panic msg := by
  simp only [findCargoParent]
  rw [hft]

/-- One non-terminating ancestor is either transparent (the candidate is
unchanged) or records itself as the candidate; either way the walk
continues past it. -/
theorem findCargoParent_step (x : Ancestor) (rest : List Ancestor)
    (hx : entryNonTerminating x.entry = true) (acc : Option (List String)) :
    findCargoParent (x :: rest) acc = findCargoParent rest acc ∨
    findCargoParent (x :: rest) acc =
      findCargoParent rest (some (x.dir ++ ["Cargo.toml"])) := by
  obtain ⟨dir, entry⟩ := x
  cases entry with
  | noFile => exact Or.inl (fcp_noFile dir rest acc)
  | readError => simp [entryNonTerminating] at hx
  | content parsed =>
    cases parsed with
    | none => exact Or.inl (fcp_parseError dir rest acc)
    | some t =>
      simp only [entryNonTerminating] at hx
      cases hft : CargoManifest.fromTable t with
      | panic m => rw [hft] at hx; simp at hx
      | ok m =>
        rw [hft] at hx
        simp only [Bool.not_eq_true'] at hx
        by_cases hp : m.package.isSome
        · right
          rw [fcp_manifest dir t m rest acc hft, if_neg (by simp [hx]), if_pos hp]
        · left
          rw [fcp_manifest dir t m rest acc hft, if_neg (by simp [hx]), if_neg hp]

/-- A block of non-terminating ancestors is traversed completely: the
walk on the whole chain equals the walk on the remainder started from
some candidate. -/
theorem findCargoParent_append (pre rest : List Ancestor) :
    ∀ acc, pre.all (fun x => entryNonTerminating x.entry) = true →
    ∃ acc', findCargoParent (pre ++ rest) acc = findCargoParent rest acc' := by
  induction pre with
  | nil => exact fun acc _ => ⟨acc, rfl⟩
  | cons x pre' ih =>
    intro acc hpre
    simp only [List.all_cons, Bool.and_eq_true] at hpre
    obtain ⟨hx, hpre'⟩ := hpre
    rcases findCargoParent_step x (pre' ++ rest) hx acc with h | h
    · rw [List.cons_append, h]
      exact ih _ hpre'
    · rw [List.cons_append, h]
      exact ih _ hpre'

/-- A chain with no manifest file anywhere leaves the candidate
untouched. -/
theorem findCargoParent_allNoFile (l : List Ancestor) :
    ∀ acc, l.all (fun x => entryIsNoFile x.entry) = true →
    findCargoParent l acc = .done acc := by
  induction l with
  | nil => exact fun acc _ => rfl
  | cons x l' ih =>
    intro acc h
    simp only [List.all_cons, Bool.and_eq_true] at h
    obtain ⟨hx, hl⟩ := h
    obtain ⟨dir, entry⟩ := x
    cases entry with
    | noFile => rw [fcp_noFile]; exact ih acc hl
    | readError => simp [entryIsNoFile] at hx
    | content p => simp [entryIsNoFile] at hx

/-- C1: for every starting directory whose ancestor chain (nearest first,
up to and including the filesystem root) reaches a workspace-declaring
manifest, with every nearer ancestor holding no manifest, an unparseable
one, or a non-workspace manifest (in particular any number of
package-declaring ones), the walk stops at the workspace manifest and the
resolved root is the directory containing that manifest file. -/
theorem C1_workspace_precedence (start : List String) (pre post : List Ancestor)
    (a : Ancestor) (t : Table) (m : CargoManifest) (acc : Option (List String))
    (hpre : pre.all (fun x => entryNonTerminating x.entry) = true)
    (ha : a.entry = .content (some t))
    (hm : CargoManifest.fromTable t = .ok m)
    (hw : m.workspace = true) :
    findCargoParent (pre ++ a :: post) acc =
      .done (some (a.dir ++ ["Cargo.toml"])) ∧
    resolveRoot start (pre ++ a :: post) = .root a.dir := by
  obtain ⟨dir, entry⟩ := a
  have ha' : entry = .content (some t) := ha
  subst ha'
  have key : ∀ acc0, findCargoParent
      (pre ++ ⟨dir, .content (some t)⟩ :: post) acc0 =
      .done (some (dir ++ ["Cargo.toml"])) := by
    intro acc0
    obtain ⟨acc1, h1⟩ :=
      findCargoParent_append pre (⟨dir, .content (some t)⟩ :: post) acc0 hpre
    rw [h1, fcp_manifest dir t m post acc1 hm, if_pos hw]
  refine ⟨key acc, ?_⟩
  simp [resolveRoot, key none, dropLast_append_single]

/-- Witness for C1: a package manifest directly below a workspace
manifest, with further manifest-free ancestors above; the resolved root
is the workspace manifest's directory. -/
theorem C1_witness :
    findCargoParent
        [⟨["fs", "ws", "pkg"],
            .content (some [("package", .table [("name", .str "pkg")])])⟩,
          ⟨["fs", "ws"], .content (some [("workspace", .table [])])⟩,
          ⟨["fs"], .noFile⟩, ⟨[], .noFile⟩] none =
      .done (some ["fs", "ws", "Cargo.toml"]) ∧
    resolveRoot ["fs", "ws", "pkg"]
        [⟨["fs", "ws", "pkg"],
            .content (some [("package", .table [("name", .str "pkg")])])⟩,
          ⟨["fs", "ws"], .content (some [("workspace", .table [])])⟩,
          ⟨["fs"], .noFile⟩, ⟨[], .noFile⟩] = .root ["fs", "ws"] :=
  C1_workspace_precedence ["fs", "ws", "pkg"]
    [⟨["fs", "ws", "pkg"],
        .content (some [("package", .table [("name", .str "pkg")])])⟩]
    [⟨["fs"], .noFile⟩, ⟨[], .noFile⟩]
    ⟨["fs", "ws"], .content (some [("workspace", .table [])])⟩
    [("workspace", .table [])] ⟨none, true, none, none⟩ none
    (by decide) rfl rfl rfl

/-- C4: when the ancestor chain holds only package-declaring
non-workspace manifests (all readable and parseable), the walk returns
the topmost such manifest and the resolved root is its directory; and
when no manifest exists anywhere on the chain the walk yields no
candidate, so the caller keeps the original start directory. -/
theorem C4_topmost_package (start : List String) (pre post : List Ancestor)
    (a : Ancestor) (acc : Option (List String))
    (hpre : pre.all
      (fun x => entryIsNoFile x.entry || entryPackageNonWorkspace x.entry) = true)
    (ha : entryPackageNonWorkspace a.entry = true)
    (hpost : post.all (fun x => entryIsNoFile x.entry) = true) :
    findCargoParent (pre ++ a :: post) acc =
      .done (some (a.dir ++ ["Cargo.toml"])) ∧
    resolveRoot start (pre ++ a :: post) = .root a.dir ∧
    (∀ l s, l.all (fun x => entryIsNoFile x.entry) = true →
      findCargoParent l none = .done none ∧ resolveRoot s l = .root s) := by
  have third : ∀ l s, l.all (fun x => entryIsNoFile x.entry) = true →
      findCargoParent l none = .done none ∧ resolveRoot s l = .root s := by
    intro l s hl
    have h0 := findCargoParent_allNoFile l none hl
    exact ⟨h0, by simp [resolveRoot, h0]⟩
  have himp : ∀ e : FileEntry,
      (entryIsNoFile e || entryPackageNonWorkspace e) = true →
      entryNonTerminating e = true := by
    intro e he
    cases e with
    | noFile => rfl
    | readError => simp [entryIsNoFile, entryPackageNonWorkspace] at he
    | content p =>
      cases p with
      | none => rfl
      | some t =>
        simp only [entryIsNoFile, entryPackageNonWorkspace, Bool.false_or] at he
        cases hft : CargoManifest.fromTable t with
        | panic m => rw [hft] at he; simp at he
        | ok m =>
          rw [hft] at he
          simp only [Bool.and_eq_true] at he
          simp only [entryNonTerminating]
          rw [hft]
          exact he.1
  have hpre' : pre.all (fun x => entryNonTerminating x.entry) = true := by
    rw [List.all_eq_true] at hpre ⊢
    intro x hxmem
    exact himp x.entry (hpre x hxmem)
  obtain ⟨dir, entry⟩ := a
  have ha' : entryPackageNonWorkspace entry = true := ha
  cases entry with
  | noFile => simp [entryPackageNonWorkspace] at ha'
  | readError => simp [entryPackageNonWorkspace] at ha'
  | content p =>
    cases p with
    | none => simp [entryPackageNonWorkspace] at ha'
    | some t =>
      simp only [entryPackageNonWorkspace] at ha'
      cases hft : CargoManifest.fromTable t with
      | panic m => rw [hft] at ha'; simp at ha'
      | ok m =>
        rw [hft] at ha'
        simp only [Bool.and_eq_true, Bool.not_eq_true'] at ha'
        obtain ⟨hw, hp⟩ := ha'
        have key : ∀ acc0, findCargoParent
            (pre ++ ⟨dir, .content (some t)⟩ :: post) acc0 =
            .done (some (dir ++ ["Cargo.toml"])) := by
          intro acc0
          obtain ⟨acc1, h1⟩ := findCargoParent_append pre
            (⟨dir, .content (some t)⟩ :: post) acc0 hpre'
          rw [h1, fcp_manifest dir t m post acc1 hft,
            if_neg (by simp [hw]), if_pos hp]
          exact findCargoParent_allNoFile post _ hpost
        exact ⟨key acc,
          by simp [resolveRoot, key none, dropLast_append_single], third⟩

/-- Witness for C4: two nested package manifests with no workspace above;
the topmost package manifest's directory wins, and a manifest-free chain
falls back to the start directory. -/
theorem C4_witness :
    findCargoParent
        [⟨["r", "p1", "p2"],
            .content (some [("package", .table [("name", .str "inner")])])⟩,
          ⟨["r", "p1"], .noFile⟩,
          ⟨["r"],
            .content (some [("package", .table [("name", .str "outer")])])⟩,
          ⟨[], .noFile⟩] none = .done (some ["r", "Cargo.toml"]) ∧
    resolveRoot ["r", "p1", "p2"]
        [⟨["r", "p1", "p2"],
            .content (some [("package", .table [("name", .str "inner")])])⟩,
          ⟨["r", "p1"], .noFile⟩,
          ⟨["r"],
            .content (some [("package", .table [("name", .str "outer")])])⟩,
          ⟨[], .noFile⟩] = .root ["r"] ∧
    resolveRoot ["x", "y"] [⟨["x", "y"], .noFile⟩, ⟨["x"], .noFile⟩, ⟨[], .noFile⟩] =
      .root ["x", "y"] := by
  have h := C4_topmost_package ["r", "p1", "p2"]
    [⟨["r", "p1", "p2"],
        .content (some [("package", .table [("name", .str "inner")])])⟩,
      ⟨["r", "p1"], .noFile⟩]
    [⟨[], .noFile⟩]
    ⟨["r"], .content (some [("package", .table [("name", .str "outer")])])⟩
    none (by decide) (by decide) (by decide)
  exact ⟨h.1, h.2.1,
    (h.2.2 [⟨["x", "y"], .noFile⟩, ⟨["x"], .noFile⟩, ⟨[], .noFile⟩]
      ["x", "y"] (by decide)).2⟩

/-- C10: a read failure on any existing manifest file makes the whole
walk return no candidate at once, discarding every package candidate
recorded by nearer ancestors, so the caller falls back to the original
start directory. -/
theorem C10_read_error_discards (start : List String) (pre post : List Ancestor)
    (a : Ancestor) (acc : Option (List String))
    (hpre : pre.all (fun x => entryNonTerminating x.entry) = true)
    (ha : a.entry = .readError) :
    findCargoParent (pre ++ a :: post) acc = .done none ∧
    resolveRoot start (pre ++ a :: post) = .root start := by
  obtain ⟨dir, entry⟩ := a
  have ha' : entry = .readError := ha
  subst ha'
  have key : ∀ acc0,
      findCargoParent (pre ++ ⟨dir, .readError⟩ :: post) acc0 = .done none := by
    intro acc0
    obtain ⟨acc1, h1⟩ :=
      findCargoParent_append pre (⟨dir, .readError⟩ :: post) acc0 hpre
    rw [h1, fcp_readError]
  exact ⟨key acc, by simp [resolveRoot, key none]⟩

/-- Witness for C10: a package manifest below an unreadable manifest; the
candidate is discarded and the start directory is kept. -/
theorem C10_witness :
    findCargoParent
        [⟨["r", "p1", "p2"], .noFile⟩,
          ⟨["r", "p1"],
            .content (some [("package", .table [("name", .str "inner")])])⟩,
          ⟨["r"], .readError⟩, ⟨[], .noFile⟩] none = .done none ∧
    resolveRoot ["r", "p1", "p2"]
        [⟨["r", "p1", "p2"], .noFile⟩,
          ⟨["r", "p1"],
            .content (some [("package", .table [("name", .str "inner")])])⟩,
          ⟨["r"], .readError⟩, ⟨[], .noFile⟩] = .root ["r", "p1", "p2"] :=
  C10_read_error_discards ["r", "p1", "p2"]
    [⟨["r", "p1", "p2"], .noFile⟩,
      ⟨["r", "p1"],
        .content (some [("package", .table [("name", .str "inner")])])⟩]
    [⟨[], .noFile⟩] ⟨["r"], .readError⟩ none (by decide) rfl

/-- C8 counterexample: a manifest whose contents parse as TOML but whose
bin array holds an entry without a name makes manifest processing panic,
aborting the whole resolution walk — so not every possible manifest
content is non-fatal to the walk. -/
theorem C8_counterexample :
    findCargoParent
        [⟨["r", "pkg"], .content (some [("bin", .arr [.table []])])⟩] none =
      .panic "each binary target should have a name" := rfl

/-- C8 amended: every manifest file whose contents fail TOML parsing is
treated exactly as if no manifest file were present — the walk skips it
and continues with the next ancestor, never fatally — wherever in the
chain it occurs; contents that parse but carry a bin entry without a
string name are the exception that panics. -/
theorem C8_parse_failure_skipped (pre : List Ancestor) (dir : List String)
    (rest : List Ancestor) :
    ∀ acc, findCargoParent (pre ++ ⟨dir, .content none⟩ :: rest) acc =
      findCargoParent (pre ++ ⟨dir, .noFile⟩ :: rest) acc := by
  induction pre with
  | nil => intro acc; rfl
  | cons x pre' ih =>
    intro acc
    obtain ⟨d, e⟩ := x
    cases e with
    | noFile => exact ih acc
    | readError => rfl
    | content p =>
      cases p with
      | none => exact ih acc
      | some t =>
        cases hft : CargoManifest.fromTable t with
        | panic m =>
          rw [List.cons_append, List.cons_append, fcp_panic d t m _ acc hft,
            fcp_panic d t m _ acc hft]
        | ok m =>
          rw [List.cons_append, List.cons_append,
            fcp_manifest d t m _ acc hft, fcp_manifest d t m _ acc hft]
          by_cases hw : m.workspace
          · rw [if_pos hw, if_pos hw]
          · rw [if_neg hw, if_neg hw]
            by_cases hp : m.package.isSome
            · rw [if_pos hp, if_pos hp]
              exact ih _
            · rw [if_neg hp, if_neg hp]
              exact ih _

theorem alGet_insert_into_env_ne (t : Table) (template debug deploy cp gp : String)
    (k : String) (hk : k ∉ generatedKeys) :
    alGet (insert_into_env t template debug deploy cp gp) k = alGet t k := by
  simp only [generatedKeys, List.mem_cons, List.not_mem_nil, or_false,
    not_or] at hk
  obtain ⟨h1, h2, h3, h4, h5⟩ := hk
  unfold insert_into_env
  rw [alGet_alInsert_ne _ _ _ _ h5, alGet_alInsert_ne _ _ _ _ h4,
    alGet_alInsert_ne _ _ _ _ h3, alGet_alInsert_ne _ _ _ _ h2,
    alGet_alInsert_ne _ _ _ _ h1]

theorem alGet_insert_into_env_keys (t : Table) (a b c d e : String) :
    alGet (insert_into_env t a b c d e) TEMPLATE_ENV = some (.str a) ∧
    alGet (insert_into_env t a b c d e) DEBUG_ENV = some (.str b) ∧
    alGet (insert_into_env t a b c d e) DEPLOY_ENV = some (.str c) ∧
    alGet (insert_into_env t a b c d e) CONFIG_PATH_ENV = some (.str d) ∧
    alGet (insert_into_env t a b c d e) GENERATED_FILE_PATH_ENV = some (.str e) := by
  unfold insert_into_env
  refine ⟨?_, ?_, ?_, ?_, ?_⟩
  · rw [alGet_alInsert_ne _ _ _ _ (by decide), alGet_alInsert_ne _ _ _ _ (by decide),
      alGet_alInsert_ne _ _ _ _ (by decide), alGet_alInsert_ne _ _ _ _ (by decide),
      alGet_alInsert_self]
  · rw [alGet_alInsert_ne _ _ _ _ (by decide), alGet_alInsert_ne _ _ _ _ (by decide),
      alGet_alInsert_ne _ _ _ _ (by decide), alGet_alInsert_self]
  · rw [alGet_alInsert_ne _ _ _ _ (by decide), alGet_alInsert_ne _ _ _ _ (by decide),
      alGet_alInsert_self]
  · rw [alGet_alInsert_ne _ _ _ _ (by decide), alGet_alInsert_self]
  · rw [alGet_alInsert_self]

theorem insert_into_env_nil (a b c d e : String) :
    insert_into_env [] a b c d e =
      [(TEMPLATE_ENV, .str a), (DEBUG_ENV, .str b), (DEPLOY_ENV, .str c),
        (CONFIG_PATH_ENV, .str d), (GENERATED_FILE_PATH_ENV, .str e)] := rfl

/-- C2: a successful merge changes no top-level key other than env, and
changes no key inside a pre-existing env table other than the five fixed
generated keys. -/
theorem C2_merge_frame (toml out : Table)
    (template debug deploy config_path generated_path rel : String)
    (h : update_config_toml toml template debug deploy config_path
      generated_path rel = .ok out) :
    (∀ k, k ≠ "env" → alGet out k = alGet toml k) ∧
    (∀ tEnv tEnv', alGet toml "env" = some (.table tEnv) →
      alGet out "env" = some (.table tEnv') →
      ∀ k, k ∉ generatedKeys → alGet tEnv' k = alGet tEnv k) := by
  simp only [update_config_toml] at h
  cases henv : alGet toml "env" with
  | none =>
    rw [henv] at h
    simp only [Except.ok.injEq] at h
    subst h
    refine ⟨fun k hk => alGet_alInsert_ne _ _ _ _ hk, ?_⟩
    intro tEnv tEnv' h1 _ _ _
    exact absurd h1 (by simp)
  | some v =>
    rw [henv] at h
    cases v with
    | table t =>
      simp only [Except.ok.injEq] at h
      subst h
      refine ⟨fun k hk => alGet_alInsert_ne _ _ _ _ hk, ?_⟩
      intro tEnv tEnv' h1 h2 k hk
      simp only [Option.some.injEq, TomlValue.table.injEq] at h1
      subst h1
      rw [alGet_alInsert_self] at h2
      simp only [Option.some.injEq, TomlValue.table.injEq] at h2
      subst h2
      exact alGet_insert_into_env_ne _ _ _ _ _ _ _ hk
    | str s => exact absurd h (by simp)
    | int n => exact absurd h (by simp)
    | bool b => exact absurd h (by simp)
    | arr vs => exact absurd h (by simp)

/-- Witness for C2: a config document with a build section and a
pre-existing env key; both survive the merge unchanged. -/
theorem C2_witness :
    alGet
      [("build", TomlValue.table [("jobs", .int 4)]),
        ("env", TomlValue.table
          [("OTHER", .str "keep"),
            ("TOML_CONST_TEMPLATE", .str "foo.template.toml"),
            ("TOML_CONST_DEBUG", .str "foo.debug.toml"),
            ("TOML_CONST_DEPLOY", .str "foo.deploy.toml"),
            ("TOML_CONST_CONFIG_PATH", .str "../.config/"),
            ("TOML_CONST_GENERATED_FILE_PATH", .str "generated.rs")])]
      "build" =
      alGet
        [("build", TomlValue.table [("jobs", .int 4)]),
          ("env", TomlValue.table [("OTHER", .str "keep")])] "build" ∧
    alGet
      [("OTHER", TomlValue.str "keep"),
        ("TOML_CONST_TEMPLATE", TomlValue.str "foo.template.toml"),
        ("TOML_CONST_DEBUG", TomlValue.str "foo.debug.toml"),
        ("TOML_CONST_DEPLOY", TomlValue.str "foo.deploy.toml"),
        ("TOML_CONST_CONFIG_PATH", TomlValue.str "../.config/"),
        ("TOML_CONST_GENERATED_FILE_PATH", TomlValue.str "generated.rs")]
      "OTHER" = alGet [("OTHER", TomlValue.str "keep")] "OTHER" := by
  have h := C2_merge_frame
    [("build", TomlValue.table [("jobs", .int 4)]),
      ("env", TomlValue.table [("OTHER", .str "keep")])]
    [("build", TomlValue.table [("jobs", .int 4)]),
      ("env", TomlValue.table
        [("OTHER", .str "keep"),
          ("TOML_CONST_TEMPLATE", .str "foo.template.toml"),
          ("TOML_CONST_DEBUG", .str "foo.debug.toml"),
          ("TOML_CONST_DEPLOY", .str "foo.deploy.toml"),
          ("TOML_CONST_CONFIG_PATH", .str "../.config/"),
          ("TOML_CONST_GENERATED_FILE_PATH", .str "generated.rs")])]
    "foo.template.toml" "foo.debug.toml" "foo.deploy.toml" ".config/"
    "generated.rs" "../" rfl
  exact ⟨h.1 "build" (by decide),
    h.2 [("OTHER", .str "keep")]
      [("OTHER", .str "keep"),
        ("TOML_CONST_TEMPLATE", .str "foo.template.toml"),
        ("TOML_CONST_DEBUG", .str "foo.debug.toml"),
        ("TOML_CONST_DEPLOY", .str "foo.deploy.toml"),
        ("TOML_CONST_CONFIG_PATH", .str "../.config/"),
        ("TOML_CONST_GENERATED_FILE_PATH", .str "generated.rs")]
      rfl rfl "OTHER" (by decide)⟩

/-- The boilerplate file-name formatting of `run` (src/cli.rs). -/
def templateFileName (package_name : String) : String :=
  package_name ++ ".template.toml"

/-- The debug file-name formatting of `run` (src/cli.rs). -/
def debugFileName (package_name : String) : String :=
  package_name ++ ".debug.toml"

/-- The deploy file-name formatting of `run` (src/cli.rs). -/
def deployFileName (package_name : String) : String :=
  package_name ++ ".deploy.toml"

/-- C3: after a successful merge the env section maps the five generated
keys to the three boilerplate file names derived from the package name,
the config-directory path with the relative-root string prepended, and
the generated-file path unchanged; and when env was absent or empty
before the merge, the section read back holds exactly these five
entries. -/
theorem C3_generated_section (toml out : Table)
    (pkg config_path generated_path rel : String)
    (h : update_config_toml toml (templateFileName pkg) (debugFileName pkg)
      (deployFileName pkg) config_path generated_path rel = .ok out) :
    (∃ t, alGet out "env" = some (.table t) ∧
      alGet t TEMPLATE_ENV = some (.str (pkg ++ ".template.toml")) ∧
      alGet t DEBUG_ENV = some (.str (pkg ++ ".debug.toml")) ∧
      alGet t DEPLOY_ENV = some (.str (pkg ++ ".deploy.toml")) ∧
      alGet t CONFIG_PATH_ENV = some (.str (rel ++ config_path)) ∧
      alGet t GENERATED_FILE_PATH_ENV = some (.str generated_path)) ∧
    ((alGet toml "env" = none ∨ alGet toml "env" = some (.table [])) →
      alGet out "env" = some (.table
        [(TEMPLATE_ENV, .str (pkg ++ ".template.toml")),
          (DEBUG_ENV, .str (pkg ++ ".debug.toml")),
          (DEPLOY_ENV, .str (pkg ++ ".deploy.toml")),
          (CONFIG_PATH_ENV, .str (rel ++ config_path)),
          (GENERATED_FILE_PATH_ENV, .str generated_path)])) := by
  simp only [update_config_toml] at h
  cases henv : alGet toml "env" with
  | none =>
    rw [henv] at h
    simp only [Except.ok.injEq] at h
    subst h
    obtain ⟨k1, k2, k3, k4, k5⟩ := alGet_insert_into_env_keys []
      (templateFileName pkg) (debugFileName pkg) (deployFileName pkg)
      (rel ++ config_path) generated_path
    refine ⟨⟨_, alGet_alInsert_self _ _ _, k1, k2, k3, k4, k5⟩, ?_⟩
    intro _
    rw [alGet_alInsert_self, insert_into_env_nil]
    rfl
  | some v =>
    rw [henv] at h
    cases v with
    | table t =>
      simp only [Except.ok.injEq] at h
      subst h
      obtain ⟨k1, k2, k3, k4, k5⟩ := alGet_insert_into_env_keys t
        (templateFileName pkg) (debugFileName pkg) (deployFileName pkg)
        (rel ++ config_path) generated_path
      refine ⟨⟨_, alGet_alInsert_self _ _ _, k1, k2, k3, k4, k5⟩, ?_⟩
      rintro (habs | hemp)
      · exact absurd habs (by simp)
      · simp only [Option.some.injEq, TomlValue.table.injEq] at hemp
        subst hemp
        rw [alGet_alInsert_self, insert_into_env_nil]
        rfl
    | str s => exact absurd h (by simp)
    | int n => exact absurd h (by simp)
    | bool b => exact absurd h (by simp)
    | arr vs => exact absurd h (by simp)

/-- Witness for C3, the spec's root-manifest scenario: package name foo,
config dir .config/, generated file generated.rs, empty relative root;
merging into an empty document yields exactly the five generated
entries. -/
theorem C3_witness :
    alGet
      [("env", TomlValue.table
        [("TOML_CONST_TEMPLATE", .str "foo.template.toml"),
          ("TOML_CONST_DEBUG", .str "foo.debug.toml"),
          ("TOML_CONST_DEPLOY", .str "foo.deploy.toml"),
          ("TOML_CONST_CONFIG_PATH", .str ".config/"),
          ("TOML_CONST_GENERATED_FILE_PATH", .str "generated.rs")])] "env" =
      some (TomlValue.table
        [("TOML_CONST_TEMPLATE", .str "foo.template.toml"),
          ("TOML_CONST_DEBUG", .str "foo.debug.toml"),
          ("TOML_CONST_DEPLOY", .str "foo.deploy.toml"),
          ("TOML_CONST_CONFIG_PATH", .str ".config/"),
          ("TOML_CONST_GENERATED_FILE_PATH", .str "generated.rs")]) :=
  (C3_generated_section []
    [("env", TomlValue.table
      [("TOML_CONST_TEMPLATE", .str "foo.template.toml"),
        ("TOML_CONST_DEBUG", .str "foo.debug.toml"),
        ("TOML_CONST_DEPLOY", .str "foo.deploy.toml"),
        ("TOML_CONST_CONFIG_PATH", .str ".config/"),
        ("TOML_CONST_GENERATED_FILE_PATH", .str "generated.rs")])]
    "foo" ".config/" "generated.rs" "" rfl).2 (Or.inl rfl)

/-- C6: when the env key holds a non-table value the merge returns the
shape-conflict error, nothing is coerced or overwritten, and the caller's
write gate never writes the document back. -/
theorem C6_env_shape_conflict (toml : Table) (v : TomlValue)
    (template debug deploy config_path generated_path rel : String)
    (hget : alGet toml "env" = some v) (hnt : v.isTable = false) :
    update_config_toml toml template debug deploy config_path generated_path
      rel = .error "key \"env\" not defined as a table" ∧
    mergedConfigWrite toml template debug deploy config_path generated_path
      rel = none := by
  have herr : update_config_toml toml template debug deploy config_path
      generated_path rel = .error "key \"env\" not defined as a table" := by
    simp only [update_config_toml]
    rw [hget]
    cases v with
    | str s => rfl
    | int n => rfl
    | bool b => rfl
    | arr vs => rfl
    | table t => simp [TomlValue.isTable] at hnt
  exact ⟨herr, by simp [mergedConfigWrite, herr]⟩

/-- Witness for C6: an env key holding a string. -/
theorem C6_witness :
    update_config_toml [("env", TomlValue.str "oops")] "t" "d" "p" "c" "g" "" =
      .error "key \"env\" not defined as a table" ∧
    mergedConfigWrite [("env", TomlValue.str "oops")] "t" "d" "p" "c" "g" "" =
      none :=
  C6_env_shape_conflict [("env", .str "oops")] (.str "oops") "t" "d" "p" "c"
    "g" "" rfl rfl

theorem stripRoot_append (root l : List String) :
    stripRoot (root ++ l) root = some l := by
  simp [stripRoot, List.take_left, List.drop_left]

/-- C5: for a target file below the resolved root the computed relative
string repeats the parent-directory step once per directory level between
the file's directory and the root; it is empty when the file sits in the
root itself, and two levels of nesting give exactly two steps. -/
theorem C5_relative_root_levels (root dirs : List String) (fname d1 d2 : String) :
    relative_root (root ++ (dirs ++ [fname])) root =
      some (String.join (List.replicate dirs.length "../")) ∧
    relative_root (root ++ [fname]) root = some "" ∧
    relative_root (root ++ [d1, d2, fname]) root = some "../../" := by
  have gen : ∀ ds : List String, relative_root (root ++ (ds ++ [fname])) root =
      some (String.join (List.replicate ds.length "../")) := by
    intro ds
    simp only [relative_root, stripRoot_append]
    simp
  refine ⟨gen dirs, ?_, ?_⟩
  · have h0 := gen []
    simpa using h0
  · have h2 := gen [d1, d2]
    simpa using h2

theorem fsRead_fsWrite_ne (fs : FsState) (p q c : String) (h : q ≠ p) :
    fsRead (fsWrite fs p c) q = fsRead fs q := by
  simp only [fsRead, fsWrite]
  rw [alGet_alInsert_ne _ _ _ _ h]

/-- C7 counterexample: with the debug file already holding content and
the template file empty, the call returns the pre-existing-files error
yet the template file — inspected earlier in the same call — has been
written with the boilerplate, so the claim that no file in the set is
written is false. -/
theorem C7_counterexample :
    create_config_toml_files [("foo.debug.toml", "user data")]
        "foo.template.toml" "foo.debug.toml" "foo.deploy.toml" =
      ([("foo.debug.toml", "user data"),
          ("foo.template.toml", CONFIG_TOML_BOILERPLATE)],
        some "Config files already exist") ∧
    fsRead [("foo.debug.toml", "user data")] "foo.template.toml" = "" ∧
    CONFIG_TOML_BOILERPLATE ≠ "" := by
  refine ⟨rfl, rfl, by decide⟩

/-- C7 amended: the non-empty check happens per file, immediately before
that file is written; when a file with content is reached the call stops
with the pre-existing-files error without writing that file or any later
one, but every empty file inspected earlier in the same call has already
been written with the boilerplate. -/
theorem C7_per_file_check (fs : FsState) (pre : List String) (p : String)
    (rest : List String) (hnd : pre.Nodup) (hnp : p ∉ pre)
    (hpre : ∀ q ∈ pre, fsRead fs q = "") (hp : fsRead fs p ≠ "") :
    createLoop fs (pre ++ p :: rest) =
      (pre.foldl (fun s q => fsWrite s q CONFIG_TOML_BOILERPLATE) fs,
        some "Config files already exist") := by
  induction pre generalizing fs with
  | nil =>
    simp only [List.nil_append, List.foldl_nil, createLoop]
    rw [if_neg hp]
  | cons q pre' ih =>
    simp only [List.nodup_cons] at hnd
    simp only [List.mem_cons, not_or] at hnp
    have hq : fsRead fs q = "" := hpre q (List.mem_cons_self q pre')
    simp only [List.cons_append, createLoop, List.foldl_cons]
    rw [if_pos hq]
    refine ih _ hnd.2 hnp.2 ?_ ?_
    · intro q' hq'
      rw [fsRead_fsWrite_ne fs q q' CONFIG_TOML_BOILERPLATE ?_]
      · exact hpre q' (List.mem_cons_of_mem q hq')
      · intro hqq
        subst hqq
        exact hnd.1 hq'
    · rw [fsRead_fsWrite_ne fs q p CONFIG_TOML_BOILERPLATE hnp.1]
      exact hp

/-- Witness for C7 as amended: the first file is empty and gets written,
the second already has content and stops the call. -/
theorem C7_witness :
    createLoop [("a.debug.toml", "x")]
        (["a.template.toml"] ++ "a.debug.toml" :: ["a.deploy.toml"]) =
      ([("a.debug.toml", "x"), ("a.template.toml", CONFIG_TOML_BOILERPLATE)],
        some "Config files already exist") :=
  C7_per_file_check [("a.debug.toml", "x")] ["a.template.toml"]
    "a.debug.toml" ["a.deploy.toml"] (by decide) (by decide)
    (by intro q hq; simp only [List.mem_singleton] at hq; subst hq; rfl)
    (by decide)

/-- C9 counterexample: an I/O failure on the open call of the first
ignore file aborts with a panic instead of a returned error, and I/O
failures on the write calls of the two different ignore files return the
same error value, so the returned error cannot identify which of the two
ignore files failed. -/
theorem C9_counterexample :
    update_gitignore_file ["pkg", "generated.rs"]
        ⟨.ioErr "permission denied", .ok, .ok, .ok⟩ = .panic ∧
    update_gitignore_file ["pkg", "generated.rs"]
        ⟨.ok, .ioErr "disk full", .ok, .ok⟩ =
      update_gitignore_file ["pkg", "generated.rs"]
        ⟨.ok, .ok, .ok, .ioErr "disk full"⟩ := by
  exact ⟨rfl, rfl⟩

/-- C9 amended: I/O errors on either write call surface as a returned
error carrying the underlying cause's message but nothing identifying
which ignore file failed, while I/O errors on either open call abort with
a panic rather than a returned error. -/
theorem C9_error_surface (p : List String) (x m : String) (disk : IgnoreDisk)
    (hx : p.getLast? = some x) :
    (disk.openGenerated = .ioErr m → update_gitignore_file p disk = .panic) ∧
    (disk.openGenerated = .ok → disk.writeGenerated = .ioErr m →
      update_gitignore_file p disk = .err m) ∧
    (disk.openGenerated = .ok → disk.writeGenerated = .ok →
      disk.openConfig = .ioErr m → update_gitignore_file p disk = .panic) ∧
    (disk.openGenerated = .ok → disk.writeGenerated = .ok →
      disk.openConfig = .ok → disk.writeConfig = .ioErr m →
      update_gitignore_file p disk = .err m) := by
  obtain ⟨o1, w1, o2, w2⟩ := disk
  refine ⟨?_, ?_, ?_, ?_⟩
  · intro h1
    have h1' : o1 = .ioErr m := h1
    subst h1'
    simp [update_gitignore_file, hx]
  · intro h1 h2
    have h1' : o1 = .ok := h1
    have h2' : w1 = .ioErr m := h2
    subst h1'
    subst h2'
    simp [update_gitignore_file, hx]
  · intro h1 h2 h3
    have h1' : o1 = .ok := h1
    have h2' : w1 = .ok := h2
    have h3' : o2 = .ioErr m := h3
    subst h1'
    subst h2'
    subst h3'
    simp [update_gitignore_file, hx]
  · intro h1 h2 h3 h4
    have h1' : o1 = .ok := h1
    have h2' : w1 = .ok := h2
    have h3' : o2 = .ok := h3
    have h4' : w2 = .ioErr m := h4
    subst h1'
    subst h2'
    subst h3'
    subst h4'
    simp [update_gitignore_file, hx]

/-- Witness for C9 as amended: a failing write on the first ignore file
returns the underlying message. -/
theorem C9_witness :
    update_gitignore_file ["generated.rs"] ⟨.ok, .ioErr "disk full", .ok, .ok⟩ =
      .err "disk full" :=
  (C9_error_surface ["generated.rs"] "generated.rs" "disk full"
    ⟨.ok, .ioErr "disk full", .ok, .ok⟩ rfl).2.1 rfl rfl
